import Mathlib

/-!
# Verification of `Open3D/Registration/Registration.h`

Shallow embedding of the registration module of this repository.  The
repository ships the header `src/Open3D/Registration/Registration.h`; the
inline members (`ICPConvergenceCriteria`, `RANSACConvergenceCriteria`,
`RegistrationResult` and its constructor, `IsBetterRANSACThan`) are embedded
directly from that source.  The bodies of the free functions
(`EvaluateRegistration`, `RegistrationICP`,
`RegistrationRANSACBasedOnCorrespondence`, ...) are declared in the header but
their translation unit is not part of the repository, so those are modelled
from the specification document, as marked on each definition.

C++ `double` is modelled as `ℝ`, `int` as `ℤ` (loop counts convert with
`Int.toNat`).  A 3-D point is a triple of reals; a 4×4 homogeneous
transformation is a `Matrix (Fin 4) (Fin 4) ℝ`.
-/

namespace Open3D

/-- A 3-D point (`Eigen::Vector3d`). -/
abbrev Pt : Type := ℝ × ℝ × ℝ

/-- A point cloud is an ordered sequence of 3-D points. -/
abbrev PointCloud : Type := List Pt

/-- A 4×4 homogeneous transformation matrix (`Eigen::Matrix4d`). -/
abbrev Mat4 : Type := Matrix (Fin 4) (Fin 4) ℝ

/-- `CorrespondenceSet`: ordered sequence of (source-index, target-index)
pairs. -/
abbrev CorrespondenceSet : Type := List (ℕ × ℕ)

/-- From the header: `ICPConvergenceCriteria` stores two relative tolerances
and a maximum iteration count; its constructor copies the arguments into the
fields unchanged. -/
structure ICPConvergenceCriteria where
  relative_fitness : ℝ
  relative_rmse : ℝ
  max_iteration : ℤ

/-- The `ICPConvergenceCriteria` constructor with its default arguments
(`1e-6`, `1e-6`, `30`): it initializes each field from the corresponding
parameter, with no validation. -/
def ICPConvergenceCriteria.create (relative_fitness : ℝ := 1e-6)
    (relative_rmse : ℝ := 1e-6) (max_iteration : ℤ := 30) :
    ICPConvergenceCriteria :=
  { relative_fitness := relative_fitness, relative_rmse := relative_rmse,
    max_iteration := max_iteration }

/-- From the header: `RANSACConvergenceCriteria` stores a maximum iteration
count and a desired probability of success. -/
structure RANSACConvergenceCriteria where
  max_iteration : ℤ
  confidence : ℝ

/-- The `RANSACConvergenceCriteria` constructor with its default arguments
(`100000`, `0.999`): it initializes each field from the corresponding
parameter, with no validation. -/
def RANSACConvergenceCriteria.create (max_iteration : ℤ := 100000)
    (confidence : ℝ := 0.999) : RANSACConvergenceCriteria :=
  { max_iteration := max_iteration, confidence := confidence }

/-- From the header: the registration result record. -/
structure RegistrationResult where
  transformation : Mat4
  correspondence_set : CorrespondenceSet
  inlier_rmse : ℝ
  fitness : ℝ

/-- The `RegistrationResult` constructor: takes a transformation (default the
identity matrix), sets `inlier_rmse_` and `fitness_` to `0.0` and leaves the
correspondence set default-constructed (empty). -/
def RegistrationResult.create (transformation : Mat4 := 1) :
    RegistrationResult :=
  { transformation := transformation, correspondence_set := [],
    inlier_rmse := 0, fitness := 0 }

/-- From the header, `RegistrationResult::IsBetterRANSACThan`:
`fitness_ > other.fitness_ || (fitness_ == other.fitness_ &&
inlier_rmse_ < other.inlier_rmse_)`. -/
def RegistrationResult.IsBetterRANSACThan
    (r other : RegistrationResult) : Prop :=
  r.fitness > other.fitness ∨
    (r.fitness = other.fitness ∧ r.inlier_rmse < other.inlier_rmse)

noncomputable instance (r other : RegistrationResult) :
    Decidable (r.IsBetterRANSACThan other) := by
  unfold RegistrationResult.IsBetterRANSACThan
  exact Classical.propDecidable _

/-- Modelled from the spec: step 5 of the RANSAC core loop (§4.5), whose
translation unit is absent from the repository.  "Keep the best-so-far
result": the candidate replaces the current best exactly when the header's
`IsBetterRANSACThan` predicate accepts it. -/
noncomputable def ransacUpdateBest
    (best cand : RegistrationResult) : RegistrationResult :=
  if cand.IsBetterRANSACThan best then cand else best

/-- Squared Euclidean distance between two 3-D points. -/
noncomputable def sqDist (p q : Pt) : ℝ :=
  (p.1 - q.1) ^ 2 + (p.2.1 - q.2.1) ^ 2 + (p.2.2 - q.2.2) ^ 2

/-- Application of a 4×4 homogeneous transformation to a 3-D point: the
first three components of `T * (x, y, z, 1)`. -/
noncomputable def transformPoint (T : Mat4) (p : Pt) : Pt :=
  (T 0 0 * p.1 + T 0 1 * p.2.1 + T 0 2 * p.2.2 + T 0 3,
   T 1 0 * p.1 + T 1 1 * p.2.1 + T 1 2 * p.2.2 + T 1 3,
   T 2 0 * p.1 + T 2 1 * p.2.1 + T 2 2 * p.2.2 + T 2 3)

/-- Modelled from the spec: the external nearest-neighbour search used by the
Evaluator (§4.1), whose implementation is not part of the repository.
Returns the index of a closest point of the cloud together with the squared
distance to it (`none` on the empty cloud); ties prefer the earlier index. -/
noncomputable def nnSearch (q : Pt) : PointCloud → Option (ℕ × ℝ)
  | [] => none
  | x :: xs =>
    match nnSearch q xs with
    | none => some (0, sqDist q x)
    | some (j, s) =>
        if sqDist q x ≤ s then some (0, sqDist q x) else some (j + 1, s)

/-- Modelled from the spec: the correspondence-building pass of
`EvaluateRegistration` (§4.1), whose translation unit is absent from the
repository.  Walks the source points (first argument `i` is the index of the
head of the remaining list), transforms each one, queries the
nearest-neighbour search on the target, and keeps the pair when the
neighbour lies within the distance threshold; each kept entry carries its
squared distance.  `dist ≤ d` is expressed on squared distances as
`0 ≤ d ∧ s ≤ d²`. -/
noncomputable def buildCorres (target : PointCloud) (d : ℝ) (T : Mat4) :
    ℕ → PointCloud → List ((ℕ × ℕ) × ℝ)
  | _, [] => []
  | i, p :: ps =>
    match nnSearch (transformPoint T p) target with
    | none => buildCorres target d T (i + 1) ps
    | some (j, s) =>
        if 0 ≤ d ∧ s ≤ d ^ 2 then
          ((i, j), s) :: buildCorres target d T (i + 1) ps
        else buildCorres target d T (i + 1) ps

/-- Modelled from the spec: `EvaluateRegistration` (§4.1), whose translation
unit is absent from the repository.  Builds the correspondence set at the
given transformation, then `fitness = #correspondences / #target points` and
`inlier_rmse = sqrt(mean squared distance)`, both `0` when no correspondence
exists (§4.1, §7 DegenerateResult). -/
noncomputable def EvaluateRegistration (source target : PointCloud)
    (max_correspondence_distance : ℝ) (transformation : Mat4 := 1) :
    RegistrationResult :=
  let cs := buildCorres target max_correspondence_distance transformation
    0 source
  { transformation := transformation
    correspondence_set := cs.map Prod.fst
    inlier_rmse :=
      if cs = [] then 0
      else Real.sqrt ((cs.map Prod.snd).sum / (cs.length : ℝ))
    fitness :=
      if cs = [] then 0 else (cs.length : ℝ) / (target.length : ℝ) }

/-- Modelled from the spec: the ICP convergence test (§4.4 step 4): stop when
`|current.fitness - previous.fitness| < relative_fitness` and
`|current.rmse - previous.rmse| < relative_rmse` both hold. -/
def icpConverged (crit : ICPConvergenceCriteria)
    (prev curr : RegistrationResult) : Prop :=
  |curr.fitness - prev.fitness| < crit.relative_fitness ∧
  |curr.inlier_rmse - prev.inlier_rmse| < crit.relative_rmse

noncomputable instance (crit : ICPConvergenceCriteria)
    (prev curr : RegistrationResult) :
    Decidable (icpConverged crit prev curr) :=
  Classical.propDecidable _

/-- Modelled from the spec: the `RegistrationICP` iteration loop (§4.4),
whose translation unit is absent from the repository.  One iteration
(estimate an incremental transform from the previous correspondences,
compose, re-evaluate) is abstracted as `step`, since the
`TransformationEstimation` strategy and the nearest-neighbour structure are
external collaborators.  The first argument is the remaining iteration
budget; the loop returns the final result together with the number of
iterations executed, stopping early as soon as the convergence test
passes. -/
noncomputable def icpLoop (step : RegistrationResult → RegistrationResult)
    (crit : ICPConvergenceCriteria) :
    ℕ → RegistrationResult → RegistrationResult × ℕ
  | 0, prev => (prev, 0)
  | n + 1, prev =>
    let curr := step prev
    if icpConverged crit prev curr then (curr, 1)
    else
      let r := icpLoop step crit n curr
      (r.1, r.2 + 1)

/-- Modelled from the spec: `RegistrationICP` (§4.4) evaluates the initial
transformation once, then iterates at most `criteria.max_iteration` times. -/
noncomputable def RegistrationICP (source target : PointCloud) (d : ℝ)
    (step : RegistrationResult → RegistrationResult)
    (criteria : ICPConvergenceCriteria) (init : Mat4 := 1) :
    RegistrationResult :=
  (icpLoop step criteria criteria.max_iteration.toNat
    (EvaluateRegistration source target d init)).1

/-- Modelled from the spec: the error taxonomy for structural/parameter
failures (§7): `InvalidInput` and `InsufficientData` abort a call before any
iteration runs. -/
inductive RegError where
  | InvalidInput
  | InsufficientData
deriving DecidableEq

/-- Modelled from the spec: the adaptive early-termination bound of the
RANSAC loop (§4.5 step 6):
`k = log(1 - confidence) / log(1 - fitness ^ ransac_n)`.  Lean's total
`Real.log`/division make the degenerate `fitness = 1` case evaluate to `0`,
realizing the immediate-stop reading of §9. -/
noncomputable def ransacK (confidence fitness : ℝ) (ransac_n : ℕ) : ℝ :=
  Real.log (1 - confidence) / Real.log (1 - fitness ^ ransac_n)

/-- Modelled from the spec: the RANSAC core loop (§4.5), whose translation
unit is absent from the repository.  Sampling `ransac_n` correspondences,
estimating a candidate transform, checking it and evaluating it against the
full set (steps 1–4) are abstracted as the candidate sequence `cand`
(external randomness and estimation strategy).  State: remaining fuel,
iteration counter `itr`, running best, and the real-valued effective budget;
an iteration runs only while `itr < budget` (step 6); step 5 is the
best-update `ransacUpdateBest`; after an update with positive fitness the
budget shrinks to `min max_iteration k`.  Returns the final best and the
number of iterations executed. -/
noncomputable def ransacLoop (crit : RANSACConvergenceCriteria)
    (ransac_n : ℕ) (cand : ℕ → RegistrationResult) :
    ℕ → ℕ → RegistrationResult → ℝ → RegistrationResult × ℕ
  | 0, itr, best, _ => (best, itr)
  | fuel + 1, itr, best, budget =>
    if (itr : ℝ) < budget then
      let c := cand itr
      let best' := ransacUpdateBest best c
      let budget' :=
        if 0 < best'.fitness ∧ c.IsBetterRANSACThan best then
          min ((crit.max_iteration.toNat : ℕ) : ℝ)
            (ransacK crit.confidence best'.fitness ransac_n)
        else budget
      ransacLoop crit ransac_n cand fuel (itr + 1) best' budget'
    else (best, itr)

/-- Modelled from the spec: `RegistrationRANSACBasedOnCorrespondence`
(§4.5, §7), whose translation unit is absent from the repository.  With
fewer correspondences than `ransac_n` no minimal set can be sampled and the
call aborts with `InsufficientData` before any iteration; otherwise the core
loop runs from the default-constructed result with the full iteration
budget. -/
noncomputable def RegistrationRANSACBasedOnCorrespondence
    (corres : CorrespondenceSet) (ransac_n : ℕ)
    (cand : ℕ → RegistrationResult) (crit : RANSACConvergenceCriteria) :
    Except RegError (RegistrationResult × ℕ) :=
  if corres.length < ransac_n then Except.error RegError.InsufficientData
  else Except.ok (ransacLoop crit ransac_n cand crit.max_iteration.toNat 0
    RegistrationResult.create ((crit.max_iteration.toNat : ℕ) : ℝ))

/-- A high-quality result used by the early-termination counterexample. -/
noncomputable def cexBest : RegistrationResult :=
  { transformation := 1, correspondence_set := [], inlier_rmse := 0,
    fitness := 9 / 10 }

/-- A candidate schedule for the early-termination counterexample: nothing
at iteration 0, a fitness-`9/10` candidate at iteration 1. -/
noncomputable def cexCand : ℕ → RegistrationResult := fun i =>
  if i = 1 then cexBest else RegistrationResult.create

end Open3D

namespace Open3D

lemma sqDist_nonneg (p q : Pt) : 0 ≤ sqDist p q := by
  unfold sqDist; positivity

lemma sqDist_self (p : Pt) : sqDist p p = 0 := by
  simp [sqDist]

lemma transformPoint_one (p : Pt) : transformPoint 1 p = p := by
  obtain ⟨x, y, z⟩ := p
  simp [transformPoint, Matrix.one_apply]

lemma nnSearch_eq_none (q : Pt) :
    ∀ l : PointCloud, nnSearch q l = none → l = [] := by
  intro l h
  cases l with
  | nil => rfl
  | cons x xs =>
      exfalso
      unfold nnSearch at h
      cases hr : nnSearch q xs with
      | none => rw [hr] at h; exact Option.noConfusion h
      | some js =>
          obtain ⟨j, s⟩ := js
          rw [hr] at h
          dsimp only at h
          by_cases hc : sqDist q x ≤ s
          · rw [if_pos hc] at h; exact Option.noConfusion h
          · rw [if_neg hc] at h; exact Option.noConfusion h

lemma nnSearch_isSome (q : Pt) :
    ∀ l : PointCloud, l ≠ [] → ∃ j s, nnSearch q l = some (j, s) := by
  intro l hl
  cases l with
  | nil => exact absurd rfl hl
  | cons x xs =>
      unfold nnSearch
      cases hr : nnSearch q xs with
      | none => exact ⟨0, sqDist q x, rfl⟩
      | some js =>
          obtain ⟨j, s⟩ := js
          by_cases hc : sqDist q x ≤ s
          · exact ⟨0, sqDist q x, by dsimp only; rw [if_pos hc]⟩
          · exact ⟨j + 1, s, by dsimp only; rw [if_neg hc]⟩

/-- The nearest-neighbour search returns a realized squared distance that is
minimal over the cloud. -/
lemma nnSearch_spec (q : Pt) :
    ∀ (l : PointCloud) (j : ℕ) (s : ℝ), nnSearch q l = some (j, s) →
      (j < l.length ∧ s = sqDist q (l.getD j (0, 0, 0))) ∧
        ∀ x ∈ l, s ≤ sqDist q x := by
  intro l
  induction l with
  | nil => intro j s h; exact absurd h (by simp [nnSearch])
  | cons x xs ih =>
      intro j s h
      unfold nnSearch at h
      cases hr : nnSearch q xs with
      | none =>
          have hxs : xs = [] := nnSearch_eq_none q xs hr
          rw [hr] at h
          obtain ⟨hj, hs⟩ := Prod.mk.injEq .. ▸ Option.some.injEq .. ▸ h
          subst hxs
          injection h with h'
          injection h' with h1 h2
          subst h1; subst h2
          refine ⟨⟨by simp, by simp⟩, ?_⟩
          intro y hy
          rcases List.mem_singleton.mp hy with rfl
          exact le_rfl
      | some js =>
          obtain ⟨j', s'⟩ := js
          rw [hr] at h
          dsimp only at h
          obtain ⟨⟨hj', hs'⟩, hmin⟩ := ih j' s' hr
          by_cases hc : sqDist q x ≤ s'
          · rw [if_pos hc] at h
            injection h with h'
            injection h' with h1 h2
            subst h1; subst h2
            refine ⟨⟨by simp, by simp⟩, ?_⟩
            intro y hy
            rcases List.mem_cons.mp hy with rfl | hy
            · exact le_rfl
            · exact le_trans hc (hmin y hy)
          · rw [if_neg hc] at h
            injection h with h'
            injection h' with h1 h2
            subst h1; subst h2
            refine ⟨⟨by simpa using hj', by simpa using hs'⟩, ?_⟩
            intro y hy
            rcases List.mem_cons.mp hy with rfl | hy
            · exact le_of_lt (lt_of_not_le hc)
            · exact hmin y hy

/-- Every entry of the correspondence pass records a valid target index and
its recomputed squared distance, within the threshold. -/
lemma buildCorres_mem (target : PointCloud) (d : ℝ) (T : Mat4) :
    ∀ (ps : PointCloud) (i : ℕ) (e : (ℕ × ℕ) × ℝ),
      e ∈ buildCorres target d T i ps →
      ∃ k, k < ps.length ∧ e.1.1 = i + k ∧ e.1.2 < target.length ∧
        e.2 = sqDist (transformPoint T (ps.getD k (0, 0, 0)))
          (target.getD e.1.2 (0, 0, 0)) ∧
        0 ≤ d ∧ e.2 ≤ d ^ 2 ∧
        nnSearch (transformPoint T (ps.getD k (0, 0, 0))) target =
          some (e.1.2, e.2) := by
  intro ps
  induction ps with
  | nil => intro i e he; exact absurd he (by simp [buildCorres])
  | cons p tl ih =>
      intro i e he
      unfold buildCorres at he
      cases hr : nnSearch (transformPoint T p) target with
      | none =>
          rw [hr] at he
          obtain ⟨k, hk, h1, h2, h3, h4, h5, h6⟩ := ih (i + 1) e he
          exact ⟨k + 1, by simpa using hk, by omega, h2, by simpa using h3,
            h4, h5, by simpa using h6⟩
      | some js =>
          obtain ⟨j, s⟩ := js
          rw [hr] at he
          dsimp only at he
          by_cases hc : 0 ≤ d ∧ s ≤ d ^ 2
          · rw [if_pos hc] at he
            rcases List.mem_cons.mp he with rfl | he
            · obtain ⟨⟨hjlt, hjs⟩, -⟩ := nnSearch_spec _ target j s hr
              exact ⟨0, by simp, by simp, hjlt, by simpa using hjs, hc.1,
                hc.2, by simpa using hr⟩
            · obtain ⟨k, hk, h1, h2, h3, h4, h5, h6⟩ := ih (i + 1) e he
              exact ⟨k + 1, by simpa using hk, by omega, h2,
                by simpa using h3, h4, h5, by simpa using h6⟩
          · rw [if_neg hc] at he
            obtain ⟨k, hk, h1, h2, h3, h4, h5, h6⟩ := ih (i + 1) e he
            exact ⟨k + 1, by simpa using hk, by omega, h2, by simpa using h3,
              h4, h5, by simpa using h6⟩

/-- When every source point finds an in-threshold neighbour, the pass keeps
one entry per source point. -/
lemma buildCorres_length_of_all (target : PointCloud) (d : ℝ) (T : Mat4) :
    ∀ ps : PointCloud,
      (∀ p ∈ ps, ∃ j s,
        nnSearch (transformPoint T p) target = some (j, s) ∧
          0 ≤ d ∧ s ≤ d ^ 2) →
      ∀ i, (buildCorres target d T i ps).length = ps.length := by
  intro ps
  induction ps with
  | nil => intro _ i; simp [buildCorres]
  | cons p tl ih =>
      intro h i
      obtain ⟨j, s, hn, hd0, hs⟩ := h p (List.mem_cons_self p tl)
      unfold buildCorres
      rw [hn]
      dsimp only
      rw [if_pos ⟨hd0, hs⟩]
      simp only [List.length_cons]
      rw [ih (fun q hq => h q (List.mem_cons_of_mem p hq)) (i + 1)]

/-- The loop executes at most its budget, lands on the corresponding iterate
of `step`, runs at least one iteration when the budget is positive, stops
strictly early exactly when the convergence test passes strictly before the
last allowed iteration, and any early stop happens at a passing test. -/
lemma icpLoop_spec (step : RegistrationResult → RegistrationResult)
    (crit : ICPConvergenceCriteria) :
    ∀ (n : ℕ) (prev : RegistrationResult),
      (icpLoop step crit n prev).2 ≤ n ∧
      (icpLoop step crit n prev).1 = step^[(icpLoop step crit n prev).2] prev ∧
      (0 < n → 0 < (icpLoop step crit n prev).2) ∧
      ((icpLoop step crit n prev).2 < n ↔
        ∃ j, j + 1 < n ∧
          icpConverged crit (step^[j] prev) (step^[j + 1] prev)) ∧
      (∀ k, (icpLoop step crit n prev).2 = k + 1 → k + 1 < n →
        icpConverged crit (step^[k] prev) (step^[k + 1] prev)) := by
  intro n
  induction n with
  | zero =>
      intro prev
      refine ⟨le_rfl, rfl, by omega, ?_, ?_⟩
      · constructor
        · intro h; omega
        · rintro ⟨j, hj, -⟩; omega
      · intro k hk hlt; omega
  | succ n ih =>
      intro prev
      by_cases hc : icpConverged crit prev (step prev)
      · have hval : icpLoop step crit (n + 1) prev = (step prev, 1) := by
          unfold icpLoop
          dsimp only
          rw [if_pos hc]
        rw [hval]
        refine ⟨by omega, by simp, by omega, ?_, ?_⟩
        · constructor
          · intro h
            exact ⟨0, by omega, by simpa using hc⟩
          · rintro ⟨j, hj, -⟩
            omega
        · intro k hk hlt
          have : k = 0 := by omega
          subst this
          simpa using hc
      · have hval : icpLoop step crit (n + 1) prev =
            ((icpLoop step crit n (step prev)).1,
              (icpLoop step crit n (step prev)).2 + 1) := by
          conv_lhs => unfold icpLoop
          dsimp only
          rw [if_neg hc]
        obtain ⟨h1, h2, h3, h4, h5⟩ := ih (step prev)
        rw [hval]
        refine ⟨by omega, ?_, by omega, ?_, ?_⟩
        · simpa [Function.iterate_succ_apply] using h2
        · constructor
          · intro h
            obtain ⟨j, hj, hcv⟩ := h4.mp (by omega)
            exact ⟨j + 1, by omega,
              by simpa [Function.iterate_succ_apply] using hcv⟩
          · rintro ⟨j, hj, hcv⟩
            cases j with
            | zero => exact absurd (by simpa using hcv) hc
            | succ j =>
                have : (icpLoop step crit n (step prev)).2 < n :=
                  h4.mpr ⟨j, by omega,
                    by simpa [Function.iterate_succ_apply] using hcv⟩
                omega
        · intro k hk hlt
          cases k with
          | zero =>
              have h0 : (icpLoop step crit n (step prev)).2 = 0 := by omega
              have hn : 0 < n := by omega
              exact absurd (h3 hn) (by omega)
          | succ k =>
              have := h5 k (by omega) (by omega)
              simpa [Function.iterate_succ_apply] using this

/-- `C1`: a candidate replaces the current best iff its fitness is strictly
greater, or the fitnesses are equal and its `inlier_rmse` is strictly
smaller; consequently the running best's fitness never decreases across a
sequence of trials, and at equal fitness the `inlier_rmse` strictly
decreases on each replacement. -/
theorem ransac_best_update_spec (best cand : RegistrationResult)
    (trials : List RegistrationResult) :
    (cand.IsBetterRANSACThan best ↔
      cand.fitness > best.fitness ∨
        (cand.fitness = best.fitness ∧
          cand.inlier_rmse < best.inlier_rmse)) ∧
    (cand.IsBetterRANSACThan best → ransacUpdateBest best cand = cand) ∧
    (¬ cand.IsBetterRANSACThan best → ransacUpdateBest best cand = best) ∧
    best.fitness ≤ (ransacUpdateBest best cand).fitness ∧
    best.fitness ≤ (trials.foldl ransacUpdateBest best).fitness ∧
    (cand.IsBetterRANSACThan best → cand.fitness = best.fitness →
      (ransacUpdateBest best cand).inlier_rmse < best.inlier_rmse) := by
  refine ⟨Iff.rfl, ?_, ?_, ?_, ?_, ?_⟩
  · intro h; simp [ransacUpdateBest, h]
  · intro h; simp [ransacUpdateBest, h]
  · unfold ransacUpdateBest
    split
    · rename_i h
      rcases h with h | ⟨h, _⟩
      · exact le_of_lt h
      · exact le_of_eq h.symm
    · exact le_rfl
  · induction trials generalizing best with
    | nil => exact le_rfl
    | cons t ts ih =>
        refine le_trans ?_ (ih (ransacUpdateBest best t))
        unfold ransacUpdateBest
        split
        · rename_i h
          rcases h with h | ⟨h, _⟩
          · exact le_of_lt h
          · exact le_of_eq h.symm
        · exact le_rfl
  · intro h heq
    have hr : cand.inlier_rmse < best.inlier_rmse := by
      rcases h with h' | ⟨_, hr⟩
      · exact absurd heq h'.ne'
      · exact hr
    unfold ransacUpdateBest
    rw [if_pos h]
    exact hr

/-- `C1` witness: the update law instantiated at concrete results. -/
theorem ransac_best_update_spec_witness :
    (RegistrationResult.create 1).fitness ≤
      (ransacUpdateBest (RegistrationResult.create 1)
        (RegistrationResult.create 1)).fitness :=
  (ransac_best_update_spec (RegistrationResult.create 1)
    (RegistrationResult.create 1) []).2.2.2.1

/-- `C2` (amended to nonempty clouds): evaluating a nonempty cloud against
itself at the identity transformation with any positive threshold yields
`fitness = 1` and `inlier_rmse = 0`. -/
theorem evaluateRegistration_identity_eval (C : PointCloud) (d : ℝ)
    (hC : C ≠ []) (hd : 0 < d) :
    (EvaluateRegistration C C d 1).fitness = 1 ∧
    (EvaluateRegistration C C d 1).inlier_rmse = 0 := by
  have hall : ∀ p ∈ C, ∃ j s,
      nnSearch (transformPoint 1 p) C = some (j, s) ∧ 0 ≤ d ∧ s ≤ d ^ 2 := by
    intro p hp
    rw [transformPoint_one]
    obtain ⟨j, s, hjs⟩ := nnSearch_isSome p C hC
    refine ⟨j, s, hjs, le_of_lt hd, ?_⟩
    obtain ⟨-, hmin⟩ := nnSearch_spec p C j s hjs
    have h0 : s ≤ 0 := by have := hmin p hp; rwa [sqDist_self] at this
    have hd2 : (0 : ℝ) ≤ d ^ 2 := by positivity
    linarith
  have hlen : (buildCorres C d 1 0 C).length = C.length :=
    buildCorres_length_of_all C d 1 C hall 0
  have hne : buildCorres C d 1 0 C ≠ [] := by
    intro h
    rw [h] at hlen
    exact hC (List.length_eq_zero.mp hlen.symm)
  have hzero : ∀ e ∈ buildCorres C d 1 0 C, Prod.snd e = 0 := by
    intro e he
    obtain ⟨k, hk, -, -, h3, -, -, h6⟩ := buildCorres_mem C d 1 C 0 e he
    rw [transformPoint_one] at h6
    obtain ⟨-, hmin⟩ := nnSearch_spec _ C _ _ h6
    have hmem : C.getD k (0, 0, 0) ∈ C := by
      rw [List.getD_eq_getElem C (0, 0, 0) hk]
      exact List.getElem_mem hk
    have hle : e.2 ≤ 0 := by
      have := hmin _ hmem; rwa [sqDist_self] at this
    have hge : 0 ≤ e.2 := by rw [h3]; exact sqDist_nonneg _ _
    linarith
  have hCl : ((C.length : ℝ)) ≠ 0 := by
    exact_mod_cast fun h => hC (List.length_eq_zero.mp (by exact_mod_cast h))
  constructor
  · simp only [EvaluateRegistration, if_neg hne]
    rw [hlen, div_self hCl]
  · simp only [EvaluateRegistration, if_neg hne]
    have hsum : ((buildCorres C d 1 0 C).map Prod.snd).sum = 0 := by
      refine List.sum_eq_zero ?_
      intro x hx
      obtain ⟨e, he, rfl⟩ := List.mem_map.mp hx
      exact hzero e he
    rw [hsum, zero_div, Real.sqrt_zero]

/-- `C2` witness: the singleton cloud at the origin, threshold `1`. -/
theorem evaluateRegistration_identity_eval_witness :
    ([((0 : ℝ), (0 : ℝ), (0 : ℝ))] : PointCloud) ≠ [] ∧ (0 : ℝ) < 1 ∧
    ((EvaluateRegistration [((0 : ℝ), (0 : ℝ), (0 : ℝ))]
        [((0 : ℝ), (0 : ℝ), (0 : ℝ))] 1 1).fitness = 1 ∧
      (EvaluateRegistration [((0 : ℝ), (0 : ℝ), (0 : ℝ))]
        [((0 : ℝ), (0 : ℝ), (0 : ℝ))] 1 1).inlier_rmse = 0) :=
  ⟨by simp, by norm_num,
    evaluateRegistration_identity_eval [((0 : ℝ), (0 : ℝ), (0 : ℝ))] 1
      (by simp) (by norm_num)⟩

/-- `C2` counterexample: on the empty cloud the claim fails — the
degenerate result has `fitness = 0`, not `1` (§7 DegenerateResult), so the
unrestricted "every point cloud `C`" is false. -/
theorem evaluateRegistration_identity_empty_cex :
    ¬ ((EvaluateRegistration ([] : PointCloud) [] 1 1).fitness = 1 ∧
       (EvaluateRegistration ([] : PointCloud) [] 1 1).inlier_rmse = 0) := by
  intro h
  have h1 := h.1
  simp only [EvaluateRegistration, buildCorres, if_pos] at h1
  norm_num at h1

/-- `C3`: the evaluator's `fitness` is the number of correspondences divided
by the number of target points, and its `inlier_rmse` is the square root of
the mean squared Euclidean distance over the returned correspondences, `0`
when the correspondence set is empty. -/
theorem evaluateRegistration_fitness_rmse_formulas
    (source target : PointCloud) (d : ℝ) (T : Mat4) :
    (EvaluateRegistration source target d T).fitness =
      ((EvaluateRegistration source target d T).correspondence_set.length :
        ℝ) / (target.length : ℝ) ∧
    ((EvaluateRegistration source target d T).correspondence_set = [] →
      (EvaluateRegistration source target d T).inlier_rmse = 0) ∧
    ((EvaluateRegistration source target d T).correspondence_set ≠ [] →
      (EvaluateRegistration source target d T).inlier_rmse =
        Real.sqrt
          (((EvaluateRegistration source target d T).correspondence_set.map
              (fun ij => sqDist (transformPoint T (source.getD ij.1 (0, 0, 0)))
                (target.getD ij.2 (0, 0, 0)))).sum /
            ((EvaluateRegistration source target d T).correspondence_set.length
              : ℝ))) := by
  have key : ∀ e ∈ buildCorres target d T 0 source,
      Prod.snd e = sqDist (transformPoint T (source.getD e.1.1 (0, 0, 0)))
        (target.getD e.1.2 (0, 0, 0)) := by
    intro e he
    obtain ⟨k, hk, h1, -, h3, -⟩ := buildCorres_mem target d T source 0 e he
    rw [h1]
    simpa using h3
  refine ⟨?_, ?_, ?_⟩
  · by_cases hcs : buildCorres target d T 0 source = []
    · simp [EvaluateRegistration, hcs]
    · simp only [EvaluateRegistration, if_neg hcs, List.length_map]
  · intro h
    have hcs : buildCorres target d T 0 source = [] := by
      simpa only [EvaluateRegistration, List.map_eq_nil_iff] using h
    simp [EvaluateRegistration, hcs]
  · intro h
    have hcs : buildCorres target d T 0 source ≠ [] := by
      intro hn
      exact h (by simp [EvaluateRegistration, hn])
    simp only [EvaluateRegistration, if_neg hcs, List.length_map,
      List.map_map]
    have hmaps : (buildCorres target d T 0 source).map Prod.snd =
        (buildCorres target d T 0 source).map
          ((fun ij : ℕ × ℕ =>
            sqDist (transformPoint T (source.getD ij.1 (0, 0, 0)))
              (target.getD ij.2 (0, 0, 0))) ∘ Prod.fst) := by
      refine List.map_congr_left ?_
      intro e he
      exact key e he
    rw [hmaps]

/-- `C3` witness: the formulas instantiated on the singleton origin cloud. -/
theorem evaluateRegistration_fitness_rmse_formulas_witness :
    (EvaluateRegistration [((0 : ℝ), (0 : ℝ), (0 : ℝ))]
        [((0 : ℝ), (0 : ℝ), (0 : ℝ))] 1 1).fitness =
      ((EvaluateRegistration [((0 : ℝ), (0 : ℝ), (0 : ℝ))]
          [((0 : ℝ), (0 : ℝ), (0 : ℝ))] 1 1).correspondence_set.length : ℝ) /
        (([((0 : ℝ), (0 : ℝ), (0 : ℝ))] : PointCloud).length : ℝ) :=
  (evaluateRegistration_fitness_rmse_formulas
    [((0 : ℝ), (0 : ℝ), (0 : ℝ))] [((0 : ℝ), (0 : ℝ), (0 : ℝ))] 1 1).1

/-- `C4`: the ICP loop terminates after at most `criteria.max_iteration`
iterations; it stops strictly before `max_iteration` exactly when the
convergence test `|Δfitness| < relative_fitness ∧ |Δrmse| < relative_rmse`
passes between consecutive iterations (before the final allowed one), and
whenever it stops early the test did pass at the stopping step. -/
theorem registrationICP_terminates
    (step : RegistrationResult → RegistrationResult)
    (crit : ICPConvergenceCriteria) (r0 : RegistrationResult) :
    (icpLoop step crit crit.max_iteration.toNat r0).2 ≤
      crit.max_iteration.toNat ∧
    (∀ (source target : PointCloud) (d : ℝ) (init : Mat4),
      RegistrationICP source target d step crit init =
        (icpLoop step crit crit.max_iteration.toNat
          (EvaluateRegistration source target d init)).1) ∧
    ((icpLoop step crit crit.max_iteration.toNat r0).2 <
        crit.max_iteration.toNat ↔
      ∃ j, j + 1 < crit.max_iteration.toNat ∧
        icpConverged crit (step^[j] r0) (step^[j + 1] r0)) ∧
    (∀ k, (icpLoop step crit crit.max_iteration.toNat r0).2 = k + 1 →
      k + 1 < crit.max_iteration.toNat →
      icpConverged crit (step^[k] r0) (step^[k + 1] r0)) := by
  obtain ⟨h1, -, -, h4, h5⟩ := icpLoop_spec step crit crit.max_iteration.toNat r0
  exact ⟨h1, fun _ _ _ _ => rfl, h4, h5⟩

lemma ransacUpdateBest_fitness_mono (best cand : RegistrationResult) :
    best.fitness ≤ (ransacUpdateBest best cand).fitness := by
  unfold ransacUpdateBest
  split
  · rename_i h
    rcases h with h | ⟨h, -⟩
    · exact le_of_lt h
    · exact le_of_eq h.symm
  · exact le_rfl

lemma ransacUpdateBest_cases (best cand : RegistrationResult) :
    ransacUpdateBest best cand = best ∨ ransacUpdateBest best cand = cand := by
  unfold ransacUpdateBest
  split
  · exact Or.inr rfl
  · exact Or.inl rfl

lemma div_nonneg_of_nonpos_nonpos {a b : ℝ} (ha : a ≤ 0) (hb : b ≤ 0) :
    0 ≤ a / b := by
  rcases hb.lt_or_eq with hb | rfl
  · rw [← neg_div_neg_eq]
    exact div_nonneg (by linarith) (by linarith)
  · simp

lemma ransacK_nonneg (conf p : ℝ) (hc0 : 0 ≤ conf) (hc : conf ≤ 1)
    (hp : 0 ≤ p) (hp1 : p ≤ 1) (rn : ℕ) : 0 ≤ ransacK conf p rn := by
  unfold ransacK
  have hL : Real.log (1 - conf) ≤ 0 :=
    Real.log_nonpos (by linarith) (by linarith)
  have hpow : p ^ rn ≤ 1 := pow_le_one₀ hp hp1
  have hpow0 : 0 ≤ p ^ rn := pow_nonneg hp rn
  have hd : Real.log (1 - p ^ rn) ≤ 0 :=
    Real.log_nonpos (by linarith) (by linarith)
  exact div_nonneg_of_nonpos_nonpos hL hd

/-- The adaptive bound `k` is antitone in the held fitness: a better best
can only shrink the budget. -/
lemma ransacK_anti (conf : ℝ) (hc0 : 0 ≤ conf) (hc : conf ≤ 1) (rn : ℕ)
    {p q : ℝ} (hp : 0 < p) (hpq : p ≤ q) (hq : q ≤ 1) :
    ransacK conf q rn ≤ ransacK conf p rn := by
  have hL : Real.log (1 - conf) ≤ 0 :=
    Real.log_nonpos (by linarith) (by linarith)
  rcases hq.lt_or_eq with hq1 | rfl
  · rcases Nat.eq_zero_or_pos rn with rfl | hrn
    · simp [ransacK]
    · have hppow : p ^ rn ≤ q ^ rn := pow_le_pow_left₀ hp.le hpq rn
      have hppos : 0 < p ^ rn := pow_pos hp rn
      have hqpos : 0 < q ^ rn := pow_pos (lt_of_lt_of_le hp hpq) rn
      have hqlt : q ^ rn < 1 := pow_lt_one₀ (by linarith) hq1 (by omega)
      have hplt : p ^ rn < 1 := lt_of_le_of_lt hppow hqlt
      have hdq : 0 < 1 - q ^ rn := by linarith
      have hdple : Real.log (1 - q ^ rn) ≤ Real.log (1 - p ^ rn) :=
        Real.log_le_log hdq (by linarith)
      have hdqlt : Real.log (1 - q ^ rn) < 0 :=
        Real.log_neg hdq (by linarith)
      have hdplt : Real.log (1 - p ^ rn) < 0 :=
        Real.log_neg (by linarith) (by linarith)
      unfold ransacK
      rw [← neg_div_neg_eq (Real.log (1 - conf)) (Real.log (1 - q ^ rn)),
        ← neg_div_neg_eq (Real.log (1 - conf)) (Real.log (1 - p ^ rn))]
      exact div_le_div_of_nonneg_left (by linarith) (by linarith) (by linarith)
  · have h1 : ransacK conf 1 rn = 0 := by
      simp [ransacK]
    rw [h1]
    exact ransacK_nonneg conf p hc0 hc hp.le (by linarith) rn

lemma ransacLoop_zero (crit : RANSACConvergenceCriteria) (rn : ℕ)
    (cand : ℕ → RegistrationResult) (itr : ℕ) (best : RegistrationResult)
    (budget : ℝ) : ransacLoop crit rn cand 0 itr best budget = (best, itr) :=
  rfl

lemma ransacLoop_succ_lt (crit : RANSACConvergenceCriteria) (rn : ℕ)
    (cand : ℕ → RegistrationResult) (fuel itr : ℕ)
    (best : RegistrationResult) (budget : ℝ) (h : (itr : ℝ) < budget) :
    ransacLoop crit rn cand (fuel + 1) itr best budget =
      ransacLoop crit rn cand fuel (itr + 1)
        (ransacUpdateBest best (cand itr))
        (if 0 < (ransacUpdateBest best (cand itr)).fitness ∧
            (cand itr).IsBetterRANSACThan best then
          min ((crit.max_iteration.toNat : ℕ) : ℝ)
            (ransacK crit.confidence
              (ransacUpdateBest best (cand itr)).fitness rn)
        else budget) := by
  conv_lhs => unfold ransacLoop
  dsimp only
  rw [if_pos h]

lemma ransacLoop_succ_ge (crit : RANSACConvergenceCriteria) (rn : ℕ)
    (cand : ℕ → RegistrationResult) (fuel itr : ℕ)
    (best : RegistrationResult) (budget : ℝ) (h : ¬ (itr : ℝ) < budget) :
    ransacLoop crit rn cand (fuel + 1) itr best budget = (best, itr) := by
  conv_lhs => unfold ransacLoop
  dsimp only
  rw [if_neg h]

/-- The loop never runs past `max_iteration`: the budget never exceeds it
and the counter stays below the budget. -/
lemma ransacLoop_le_max (crit : RANSACConvergenceCriteria) (rn : ℕ)
    (cand : ℕ → RegistrationResult) :
    ∀ (fuel itr : ℕ) (best : RegistrationResult) (budget : ℝ),
      budget ≤ ((crit.max_iteration.toNat : ℕ) : ℝ) →
      (ransacLoop crit rn cand fuel itr best budget).2 ≤
        max itr crit.max_iteration.toNat := by
  intro fuel
  induction fuel with
  | zero =>
      intro itr best budget _
      rw [ransacLoop_zero]
      exact le_max_left _ _
  | succ fuel ih =>
      intro itr best budget hb
      by_cases h : (itr : ℝ) < budget
      · rw [ransacLoop_succ_lt crit rn cand fuel itr best budget h]
        have hiter : itr < crit.max_iteration.toNat := by
          have hrr : (itr : ℝ) < ((crit.max_iteration.toNat : ℕ) : ℝ) :=
            lt_of_lt_of_le h hb
          exact_mod_cast hrr
        have hb' : (if 0 < (ransacUpdateBest best (cand itr)).fitness ∧
              (cand itr).IsBetterRANSACThan best then
            min ((crit.max_iteration.toNat : ℕ) : ℝ)
              (ransacK crit.confidence
                (ransacUpdateBest best (cand itr)).fitness rn)
          else budget) ≤ ((crit.max_iteration.toNat : ℕ) : ℝ) := by
          split
          · exact min_le_left _ _
          · exact hb
        refine le_trans (ih (itr + 1) _ _ hb') ?_
        rw [max_eq_right (by omega : itr + 1 ≤ crit.max_iteration.toNat)]
        exact le_max_right _ _
      · rw [ransacLoop_succ_ge crit rn cand fuel itr best budget h]
        exact le_max_left _ _

/-- Once a best with fitness at least `p > 0` is held and the budget is
within the adaptive bound `k(p)`, the iteration counter never passes
`max itr ⌈k(p)⌉`. -/
lemma ransacLoop_held_bound (crit : RANSACConvergenceCriteria) (rn : ℕ)
    (cand : ℕ → RegistrationResult) (hconf0 : 0 ≤ crit.confidence)
    (hconf : crit.confidence ≤ 1)
    (hcand : ∀ i, 0 ≤ (cand i).fitness ∧ (cand i).fitness ≤ 1)
    (p : ℝ) (hp : 0 < p) (_hp1 : p ≤ 1) :
    ∀ (fuel itr : ℕ) (best : RegistrationResult) (budget : ℝ),
      p ≤ best.fitness → best.fitness ≤ 1 →
      budget ≤ ransacK crit.confidence p rn →
      (ransacLoop crit rn cand fuel itr best budget).2 ≤
        max itr ⌈ransacK crit.confidence p rn⌉₊ := by
  intro fuel
  induction fuel with
  | zero =>
      intro itr best budget _ _ _
      rw [ransacLoop_zero]
      exact le_max_left _ _
  | succ fuel ih =>
      intro itr best budget hpb hb1 hbud
      by_cases h : (itr : ℝ) < budget
      · rw [ransacLoop_succ_lt crit rn cand fuel itr best budget h]
        have hitr : itr < ⌈ransacK crit.confidence p rn⌉₊ :=
          Nat.lt_ceil.mpr (lt_of_lt_of_le h hbud)
        have hpb' : p ≤ (ransacUpdateBest best (cand itr)).fitness :=
          le_trans hpb (ransacUpdateBest_fitness_mono best (cand itr))
        have hb1' : (ransacUpdateBest best (cand itr)).fitness ≤ 1 := by
          rcases ransacUpdateBest_cases best (cand itr) with he | he
          · rw [he]; exact hb1
          · rw [he]; exact (hcand itr).2
        have hbud' : (if 0 < (ransacUpdateBest best (cand itr)).fitness ∧
              (cand itr).IsBetterRANSACThan best then
            min ((crit.max_iteration.toNat : ℕ) : ℝ)
              (ransacK crit.confidence
                (ransacUpdateBest best (cand itr)).fitness rn)
          else budget) ≤ ransacK crit.confidence p rn := by
          split
          · exact le_trans (min_le_right _ _)
              (ransacK_anti crit.confidence hconf0 hconf rn hp hpb' hb1')
          · exact hbud
        refine le_trans (ih (itr + 1) _ _ hpb' hb1' hbud') ?_
        rw [max_eq_right (by omega : itr + 1 ≤ ⌈ransacK crit.confidence p rn⌉₊)]
        exact le_max_right _ _
      · rw [ransacLoop_succ_ge crit rn cand fuel itr best budget h]
        exact le_max_left _ _

/-- `C5` (amended): on every improving update with positive fitness the
budget is set to `min(max_iteration, k)`; the total number of iterations
never exceeds `max_iteration`; and from any state holding a best of fitness
at least `p > 0` at iteration `i` with budget within `k(p)`, the final
iteration count never exceeds `max(i, ⌈k(p)⌉)`. -/
theorem ransac_adaptive_termination (crit : RANSACConvergenceCriteria)
    (rn : ℕ) (cand : ℕ → RegistrationResult)
    (hconf0 : 0 ≤ crit.confidence) (hconf : crit.confidence ≤ 1)
    (hcand : ∀ i, 0 ≤ (cand i).fitness ∧ (cand i).fitness ≤ 1) :
    (∀ (corres : CorrespondenceSet) (r : RegistrationResult) (k : ℕ),
      RegistrationRANSACBasedOnCorrespondence corres rn cand crit =
        Except.ok (r, k) → k ≤ crit.max_iteration.toNat) ∧
    (∀ (fuel itr : ℕ) (best : RegistrationResult) (budget : ℝ),
      (itr : ℝ) < budget → (cand itr).IsBetterRANSACThan best →
      0 < (ransacUpdateBest best (cand itr)).fitness →
      ransacLoop crit rn cand (fuel + 1) itr best budget =
        ransacLoop crit rn cand fuel (itr + 1)
          (ransacUpdateBest best (cand itr))
          (min ((crit.max_iteration.toNat : ℕ) : ℝ)
            (ransacK crit.confidence
              (ransacUpdateBest best (cand itr)).fitness rn))) ∧
    (∀ p : ℝ, 0 < p → p ≤ 1 →
      ∀ (fuel itr : ℕ) (best : RegistrationResult) (budget : ℝ),
        p ≤ best.fitness → best.fitness ≤ 1 →
        budget ≤ ransacK crit.confidence p rn →
        (ransacLoop crit rn cand fuel itr best budget).2 ≤
          max itr ⌈ransacK crit.confidence p rn⌉₊) := by
  refine ⟨?_, ?_, ?_⟩
  · intro corres r k hok
    unfold RegistrationRANSACBasedOnCorrespondence at hok
    by_cases hlt : corres.length < rn
    · rw [if_pos hlt] at hok
      exact absurd hok (by simp)
    · rw [if_neg hlt] at hok
      have hpair : ransacLoop crit rn cand crit.max_iteration.toNat 0
          RegistrationResult.create
          ((crit.max_iteration.toNat : ℕ) : ℝ) = (r, k) := by
        injection hok
      have := ransacLoop_le_max crit rn cand crit.max_iteration.toNat 0
        RegistrationResult.create ((crit.max_iteration.toNat : ℕ) : ℝ) le_rfl
      rw [hpair] at this
      simpa using this
  · intro fuel itr best budget hlt hbetter hfit
    rw [ransacLoop_succ_lt crit rn cand fuel itr best budget hlt,
      if_pos ⟨hfit, hbetter⟩]
  · intro p hp hp1 fuel itr best budget hpb hb1 hbud
    exact ransacLoop_held_bound crit rn cand hconf0 hconf hcand p hp hp1
      fuel itr best budget hpb hb1 hbud

/-- `C5` witness: the bounds instantiated on a concrete run with
`max_iteration = 0` and a constant no-correspondence candidate. -/
theorem ransac_adaptive_termination_witness :
    0 ≤ (RANSACConvergenceCriteria.create 0 (1/2)).confidence ∧
    (RANSACConvergenceCriteria.create 0 (1/2)).confidence ≤ 1 ∧
    (∀ (corres : CorrespondenceSet) (r : RegistrationResult) (k : ℕ),
      RegistrationRANSACBasedOnCorrespondence corres 3
          (fun _ => RegistrationResult.create)
          (RANSACConvergenceCriteria.create 0 (1/2)) =
        Except.ok (r, k) →
      k ≤ (RANSACConvergenceCriteria.create 0 (1/2)).max_iteration.toNat) := by
  refine ⟨by norm_num [RANSACConvergenceCriteria.create],
    by norm_num [RANSACConvergenceCriteria.create], ?_⟩
  exact (ransac_adaptive_termination (RANSACConvergenceCriteria.create 0 (1/2))
    3 (fun _ => RegistrationResult.create)
    (by norm_num [RANSACConvergenceCriteria.create])
    (by norm_num [RANSACConvergenceCriteria.create])
    (fun _ => by simp [RegistrationResult.create])).1

/-- Numeric bound on the adaptive `k` of the counterexample scene:
`k(9/10) = log(9/10)/log(271/1000) ≤ 1000/6561`. -/
lemma ransacK_cex_bound : ransacK (1/10) (9/10) 3 ≤ 1000/6561 := by
  unfold ransacK
  have h1 : (1 : ℝ) - 1/10 = 9/10 := by norm_num
  have h2 : (1 : ℝ) - (9/10) ^ 3 = 271/1000 := by norm_num
  rw [h1, h2]
  have hL : -Real.log ((9:ℝ)/10) ≤ 1/9 := by
    rw [← Real.log_inv]
    have h3 : ((9:ℝ)/10)⁻¹ = 10/9 := by norm_num
    rw [h3]
    have := Real.log_le_sub_one_of_pos (show (0:ℝ) < 10/9 by norm_num)
    linarith
  have hD : Real.log ((271:ℝ)/1000) ≤ -(729/1000) := by
    have := Real.log_le_sub_one_of_pos (show (0:ℝ) < 271/1000 by norm_num)
    linarith
  rw [← neg_div_neg_eq]
  calc -Real.log ((9:ℝ)/10) / -Real.log ((271:ℝ)/1000)
      ≤ (1/9) / (729/1000) :=
        div_le_div₀ (by norm_num) hL (by norm_num) (by linarith)
    _ = 1000/6561 := by norm_num

/-- `C5` counterexample: with `max_iteration = 5`, `confidence = 1/10`,
`ransac_n = 3`, a rejecting candidate at iteration 0 and a fitness-`9/10`
candidate at iteration 1, the loop holds a best of fitness `p = 9/10` yet
executes `2` iterations, while `⌈log(1-confidence)/log(1-p³)⌉ ≤ 1`: the
executed count exceeds the claimed ceiling bound. -/
theorem ransac_ceil_bound_cex :
    (ransacLoop (RANSACConvergenceCriteria.create 5 (1/10)) 3 cexCand
        (RANSACConvergenceCriteria.create 5 (1/10)).max_iteration.toNat 0
        RegistrationResult.create
        (((RANSACConvergenceCriteria.create 5 (1/10)).max_iteration.toNat :
          ℕ) : ℝ)).1.fitness = 9/10 ∧
    (ransacLoop (RANSACConvergenceCriteria.create 5 (1/10)) 3 cexCand
        (RANSACConvergenceCriteria.create 5 (1/10)).max_iteration.toNat 0
        RegistrationResult.create
        (((RANSACConvergenceCriteria.create 5 (1/10)).max_iteration.toNat :
          ℕ) : ℝ)).2 = 2 ∧
    ¬ ((ransacLoop (RANSACConvergenceCriteria.create 5 (1/10)) 3 cexCand
        (RANSACConvergenceCriteria.create 5 (1/10)).max_iteration.toNat 0
        RegistrationResult.create
        (((RANSACConvergenceCriteria.create 5 (1/10)).max_iteration.toNat :
          ℕ) : ℝ)).2 ≤
      ⌈ransacK (RANSACConvergenceCriteria.create 5 (1/10)).confidence
        (9/10) 3⌉₊) := by
  have hmi : (RANSACConvergenceCriteria.create 5 (1/10)).max_iteration.toNat
      = 5 := rfl
  have hcf : (RANSACConvergenceCriteria.create 5 (1/10)).confidence
      = 1/10 := rfl
  have hc0 : cexCand 0 = RegistrationResult.create := by simp [cexCand]
  have hnb : ¬ (RegistrationResult.create).IsBetterRANSACThan
      RegistrationResult.create := by
    simp [RegistrationResult.IsBetterRANSACThan, RegistrationResult.create]
  have hu0 : ransacUpdateBest RegistrationResult.create (cexCand 0) =
      RegistrationResult.create := by
    rw [hc0]
    unfold ransacUpdateBest
    rw [if_neg hnb]
  have hg : cexCand 1 = cexBest := by simp [cexCand]
  have hb1 : (cexCand 1).IsBetterRANSACThan RegistrationResult.create := by
    rw [hg]
    exact Or.inl (by norm_num [cexBest, RegistrationResult.create])
  have hu1 : ransacUpdateBest RegistrationResult.create (cexCand 1) =
      cexBest := by
    unfold ransacUpdateBest
    rw [if_pos hb1, hg]
  have hfit : cexBest.fitness = 9/10 := rfl
  have hk : ransacK (RANSACConvergenceCriteria.create 5 (1/10)).confidence
      cexBest.fitness 3 ≤ 1000/6561 := by
    rw [hcf, hfit]
    exact ransacK_cex_bound
  have hs1 : ransacLoop (RANSACConvergenceCriteria.create 5 (1/10)) 3
      cexCand 5 0 RegistrationResult.create ((5:ℕ) : ℝ) =
      ransacLoop (RANSACConvergenceCriteria.create 5 (1/10)) 3
        cexCand 4 1 RegistrationResult.create ((5:ℕ) : ℝ) := by
    have h := ransacLoop_succ_lt (RANSACConvergenceCriteria.create 5 (1/10))
      3 cexCand 4 0 RegistrationResult.create ((5:ℕ) : ℝ) (by norm_num)
    rw [hu0, if_neg (by simp [RegistrationResult.create])] at h
    exact h
  have hs2 : ransacLoop (RANSACConvergenceCriteria.create 5 (1/10)) 3
      cexCand 4 1 RegistrationResult.create ((5:ℕ) : ℝ) =
      ransacLoop (RANSACConvergenceCriteria.create 5 (1/10)) 3
        cexCand 3 2 cexBest
        (min (((RANSACConvergenceCriteria.create 5
            (1/10)).max_iteration.toNat : ℕ) : ℝ)
          (ransacK (RANSACConvergenceCriteria.create 5 (1/10)).confidence
            cexBest.fitness 3)) := by
    have h := ransacLoop_succ_lt (RANSACConvergenceCriteria.create 5 (1/10))
      3 cexCand 3 1 RegistrationResult.create ((5:ℕ) : ℝ) (by norm_num)
    rw [hu1, if_pos ⟨by norm_num [cexBest], hb1⟩] at h
    exact h
  have hs3 : ransacLoop (RANSACConvergenceCriteria.create 5 (1/10)) 3
      cexCand 3 2 cexBest
      (min (((RANSACConvergenceCriteria.create 5
          (1/10)).max_iteration.toNat : ℕ) : ℝ)
        (ransacK (RANSACConvergenceCriteria.create 5 (1/10)).confidence
          cexBest.fitness 3)) = (cexBest, 2) := by
    have hstop : ¬ (((2 : ℕ) : ℝ) <
        min (((RANSACConvergenceCriteria.create 5
            (1/10)).max_iteration.toNat : ℕ) : ℝ)
          (ransacK (RANSACConvergenceCriteria.create 5 (1/10)).confidence
            cexBest.fitness 3)) := by
      refine not_lt.mpr ?_
      refine le_trans (min_le_right _ _) ?_
      refine le_trans hk ?_
      norm_num
    exact ransacLoop_succ_ge (RANSACConvergenceCriteria.create 5 (1/10)) 3
      cexCand 2 2 cexBest _ hstop
  have hrun : ransacLoop (RANSACConvergenceCriteria.create 5 (1/10)) 3
      cexCand 5 0 RegistrationResult.create ((5:ℕ) : ℝ) =
      (cexBest, 2) := (hs1.trans hs2).trans hs3
  have hceil : ⌈ransacK (RANSACConvergenceCriteria.create 5 (1/10)).confidence
      (9/10) 3⌉₊ ≤ 1 := by
    rw [hcf]
    refine Nat.ceil_le.mpr ?_
    refine le_trans ransacK_cex_bound ?_
    norm_num
  have h21 : ¬ ((2:ℕ) ≤ 1) := by omega
  refine ⟨?_, ?_, ?_⟩ <;> rw [hmi, hrun]
  · exact rfl
  · exact fun hcon => h21 (le_trans hcon hceil)

/-- `C6`: when the correspondence set has fewer than `ransac_n` elements,
`RegistrationRANSACBasedOnCorrespondence` aborts with `InsufficientData`
before running any RANSAC iteration. -/
theorem ransac_insufficient_data (corres : CorrespondenceSet) (rn : ℕ)
    (cand : ℕ → RegistrationResult) (crit : RANSACConvergenceCriteria)
    (h : corres.length < rn) :
    RegistrationRANSACBasedOnCorrespondence corres rn cand crit =
      Except.error RegError.InsufficientData := by
  unfold RegistrationRANSACBasedOnCorrespondence
  rw [if_pos h]

/-- `C6` witness: the empty correspondence set with `ransac_n = 3`. -/
theorem ransac_insufficient_data_witness :
    ([] : CorrespondenceSet).length < 3 ∧
    RegistrationRANSACBasedOnCorrespondence [] 3
        (fun _ => RegistrationResult.create)
        (RANSACConvergenceCriteria.create 100000 (999/1000)) =
      Except.error RegError.InsufficientData :=
  ⟨by simp, ransac_insufficient_data [] 3 (fun _ => RegistrationResult.create)
    (RANSACConvergenceCriteria.create 100000 (999/1000)) (by simp)⟩

/-- `C7`: a default-constructed `RegistrationResult` has the identity
transformation, an empty correspondence set, `inlier_rmse = 0` and
`fitness = 0`. -/
theorem registrationResult_default_ctor :
    (RegistrationResult.create).transformation = 1 ∧
    (RegistrationResult.create).correspondence_set = [] ∧
    (RegistrationResult.create).inlier_rmse = 0 ∧
    (RegistrationResult.create).fitness = 0 :=
  ⟨rfl, rfl, rfl, rfl⟩

/-- `C9`: `IsBetterRANSACThan` is irreflexive and asymmetric, so a RANSAC
best-update under this predicate can never oscillate between two
equal-quality results. -/
theorem isBetterRANSACThan_strict_order (r a b : RegistrationResult) :
    ¬ r.IsBetterRANSACThan r ∧
    ¬ (a.IsBetterRANSACThan b ∧ b.IsBetterRANSACThan a) := by
  constructor
  · rintro (h | ⟨-, h⟩) <;> exact lt_irrefl _ h
  · rintro ⟨hab | ⟨hab, hab'⟩, hba | ⟨hba, hba'⟩⟩
    · exact absurd hba (not_lt_of_gt hab)
    · exact absurd hba hab.ne
    · exact absurd hab hba.ne
    · exact absurd hba' (not_lt_of_gt hab')

/-- `C10`: the criteria constructors store their parameters unchanged, with
no validation and no error condition, for every input value. -/
theorem criteria_ctors_store_unvalidated (rf rr : ℝ) (mi : ℤ)
    (mi' : ℤ) (conf : ℝ) :
    (ICPConvergenceCriteria.create rf rr mi).relative_fitness = rf ∧
    (ICPConvergenceCriteria.create rf rr mi).relative_rmse = rr ∧
    (ICPConvergenceCriteria.create rf rr mi).max_iteration = mi ∧
    (RANSACConvergenceCriteria.create mi' conf).max_iteration = mi' ∧
    (RANSACConvergenceCriteria.create mi' conf).confidence = conf :=
  ⟨rfl, rfl, rfl, rfl, rfl⟩

end Open3D
